import Mathlib

/-!
Verification of `src/sort_scan_id.py` (`create_sorted_copy`).

The program copies a CSV log to a destination path, filters the body rows by
whether the prefix of field 0 before the first occurrence of the substring
" (" parses as a `%Y/%m/%d %H:%M:%S` timestamp (and is not an "npm " marker),
stable-sorts the surviving rows by that timestamp, newest first, and rewrites
the destination with the original header followed by the sorted body.

Strings are embedded as `List Char` (Python `str`).  The file system is an
association list from paths to file contents.  CPython details that the
embedding follows:
  * `datetime.strptime` with format `%Y/%m/%d %H:%M:%S`: `_strptime` compiles
    the format to the regex `\d\d\d\d/(1[0-2]|0[1-9]|[1-9])/` ... with each
    whitespace run in the format matching `\s+`, matches it at the start of
    the string, rejects unconverted trailing data, and then the `datetime`
    constructor validates the calendar day and rejects seconds above 59.
    (Non-ASCII Unicode decimal digits, which Python's `\d` would also accept,
    are outside the scope of this model.)
  * `str.split(' (')[0]` is the prefix before the first occurrence of " ("
    (the whole string when absent).
  * `sorted(rows, key=..., reverse=True)` is a stable sort: rows with equal
    keys keep their original relative order.
  * `csv.reader` / `csv.writer` with the default dialect (delimiter `,`,
    quotechar `"`, doublequote, QUOTE_MINIMAL, non-strict, lineterminator
    CRLF for the writer), over a file opened with `newline=''`.
-/

abbrev Str := List Char

/-! ### Python `datetime.strptime` with format `%Y/%m/%d %H:%M:%S` -/

def isAsciiDigit (c : Char) : Bool := '0' ≤ c && c ≤ '9'

def digitVal (c : Char) : Nat := c.toNat - 48

/-- Python regex `\s` (the whitespace class used for runs of whitespace in a
`strptime` format string); ASCII whitespace plus the common Unicode
whitespace code points. -/
def pyIsSpace (c : Char) : Bool :=
  c = ' ' || c = '\t' || c = '\n' || c = '\x0b' || c = '\x0c' || c = '\r' ||
  c = '\x1c' || c = '\x1d' || c = '\x1e' || c = '\x1f' || c = '\x85' ||
  c = '\xa0' || c = '\u1680' || ('\u2000' ≤ c && c ≤ '\u200a') ||
  c = '\u2028' || c = '\u2029' || c = '\u202f' || c = '\u205f' || c = '\u3000'

/-- `%Y` : regex `\d\d\d\d` (exactly four digits). -/
def parseYear4 : Str → Option (Nat × Str)
  | c1 :: c2 :: c3 :: c4 :: rest =>
    if isAsciiDigit c1 && isAsciiDigit c2 && isAsciiDigit c3 && isAsciiDigit c4 then
      some (1000 * digitVal c1 + 100 * digitVal c2 + 10 * digitVal c3 + digitVal c4, rest)
    else none
  | _ => none

/-- `%m` : regex `1[0-2]|0[1-9]|[1-9]` (ordered alternatives). -/
def parseMonthC : Str → Option (Nat × Str)
  | '1' :: c :: rest =>
    if '0' ≤ c && c ≤ '2' then some (10 + digitVal c, rest)
    else some (1, c :: rest)
  | '0' :: c :: rest =>
    if '1' ≤ c && c ≤ '9' then some (digitVal c, rest)
    else none
  | c :: rest =>
    if '1' ≤ c && c ≤ '9' then some (digitVal c, rest) else none
  | [] => none

/-- `%d` : regex `3[01]|[12]\d|0[1-9]|[1-9]` (ordered alternatives). -/
def parseDayC : Str → Option (Nat × Str)
  | '3' :: c :: rest =>
    if c = '0' || c = '1' then some (30 + digitVal c, rest)
    else some (3, c :: rest)
  | c1 :: c2 :: rest =>
    if (c1 = '1' || c1 = '2') && isAsciiDigit c2 then
      some (10 * digitVal c1 + digitVal c2, rest)
    else if c1 = '0' && ('1' ≤ c2 && c2 ≤ '9') then some (digitVal c2, rest)
    else if '1' ≤ c1 && c1 ≤ '9' then some (digitVal c1, c2 :: rest)
    else none
  | [c] => if '1' ≤ c && c ≤ '9' then some (digitVal c, []) else none
  | [] => none

/-- `%H` : regex `2[0-3]|[0-1]\d|\d` (ordered alternatives). -/
def parseHourC : Str → Option (Nat × Str)
  | '2' :: c :: rest =>
    if '0' ≤ c && c ≤ '3' then some (20 + digitVal c, rest)
    else some (2, c :: rest)
  | c1 :: c2 :: rest =>
    if (c1 = '0' || c1 = '1') && isAsciiDigit c2 then
      some (10 * digitVal c1 + digitVal c2, rest)
    else if isAsciiDigit c1 then some (digitVal c1, c2 :: rest)
    else none
  | [c] => if isAsciiDigit c then some (digitVal c, []) else none
  | [] => none

/-- `%M` : regex `[0-5]\d|\d` (ordered alternatives). -/
def parseMinuteC : Str → Option (Nat × Str)
  | c1 :: c2 :: rest =>
    if ('0' ≤ c1 && c1 ≤ '5') && isAsciiDigit c2 then
      some (10 * digitVal c1 + digitVal c2, rest)
    else if isAsciiDigit c1 then some (digitVal c1, c2 :: rest)
    else none
  | [c] => if isAsciiDigit c then some (digitVal c, []) else none
  | [] => none

/-- `%S` : regex `6[0-1]|[0-5]\d|\d` (ordered alternatives). -/
def parseSecondC : Str → Option (Nat × Str)
  | '6' :: c :: rest =>
    if c = '0' || c = '1' then some (60 + digitVal c, rest)
    else some (6, c :: rest)
  | c1 :: c2 :: rest =>
    if ('0' ≤ c1 && c1 ≤ '5') && isAsciiDigit c2 then
      some (10 * digitVal c1 + digitVal c2, rest)
    else if isAsciiDigit c1 then some (digitVal c1, c2 :: rest)
    else none
  | [c] => if isAsciiDigit c then some (digitVal c, []) else none
  | [] => none

def expectChar (c : Char) : Str → Option Str
  | x :: rest => if x = c then some rest else none
  | [] => none

/-- A whitespace run in the format matches `\s+`: at least one whitespace
character, maximal munch. -/
def parseWs1 : Str → Option Str
  | c :: rest => if pyIsSpace c then some (rest.dropWhile pyIsSpace) else none
  | [] => none

structure PyDateTime where
  year : Nat
  month : Nat
  day : Nat
  hour : Nat
  minute : Nat
  second : Nat
deriving DecidableEq, Repr

def isLeapYear (y : Nat) : Bool := y % 4 = 0 && (y % 100 ≠ 0 || y % 400 = 0)

def daysInMonth (y m : Nat) : Nat :=
  if m = 2 then (if isLeapYear y then 29 else 28)
  else if m = 4 || m = 6 || m = 9 || m = 11 then 30
  else 31

/-- `datetime.strptime(s, '%Y/%m/%d %H:%M:%S')` as a total function:
`none` models a raised `ValueError` (regex mismatch, unconverted trailing
data, or a value the `datetime` constructor rejects). -/
def strptimeYmdHms (s : Str) : Option PyDateTime := do
  let (y, s1) ← parseYear4 s
  let s2 ← expectChar '/' s1
  let (mo, s3) ← parseMonthC s2
  let s4 ← expectChar '/' s3
  let (d, s5) ← parseDayC s4
  let s6 ← parseWs1 s5
  let (h, s7) ← parseHourC s6
  let s8 ← expectChar ':' s7
  let (mi, s9) ← parseMinuteC s8
  let s10 ← expectChar ':' s9
  let (sec, s11) ← parseSecondC s10
  if s11 = [] ∧ 1 ≤ y ∧ d ≤ daysInMonth y mo ∧ sec ≤ 59 then
    some ⟨y, mo, d, h, mi, sec⟩
  else none

/-- `datetime` comparison, encoded as a strictly monotone `Nat` key
(lexicographic on year, month, day, hour, minute, second; the multipliers
dominate the validated field ranges). -/
def dtKey (dt : PyDateTime) : Nat :=
  ((((dt.year * 13 + dt.month) * 32 + dt.day) * 24 + dt.hour) * 60 + dt.minute) * 60
    + dt.second

/-! ### The per-row filter and the sort (source lines 44-59) -/

/-- `s.split(' (')[0]` : the prefix before the first occurrence of the
two-character substring " (" (the whole string when it does not occur). -/
def beforeParenSplit : Str → Str
  | ' ' :: '(' :: _ => []
  | c :: rest => c :: beforeParenSplit rest
  | [] => []

/-- Whether the substring " (" occurs in the string. -/
def containsParenSub : Str → Bool
  | ' ' :: '(' :: _ => true
  | _ :: rest => containsParenSub rest
  | [] => false

def npmMarker : Str := ['n', 'p', 'm', ' ']

/-- `s.startswith(pre)` on the embedded strings (first argument the sought
initial segment, second the string). -/
def startsWithL : Str → Str → Bool
  | [], _ => true
  | _ :: _, [] => false
  | p :: ps, c :: cs => p = c && startsWithL ps cs

/-- The loop body of source lines 45-52: a row is appended to `sorted_rows`
iff the row is non-empty (`row`), its field 0 is non-empty (`row[0]`), field 0
does not start with "npm ", and `strptime` succeeds on
`row[0].split(' (')[0]`.  A `strptime` failure is caught by the per-row
`except` and only skips this row. -/
def keepRow (r : List Str) : Bool :=
  match r with
  | [] => false
  | f :: _ =>
    (!f.isEmpty) && (!startsWithL npmMarker f) &&
      (strptimeYmdHms (beforeParenSplit f)).isSome

def filterRows (rows : List (List Str)) : List (List Str) := rows.filter keepRow

/-- The sort key (source line 57):
`datetime.strptime(row[0].split(' (')[0], '%Y/%m/%d %H:%M:%S')`.
Python indexes `row[0]` (an `IndexError` on an empty row) and `strptime`
raises on a parse failure; both are impossible for the filtered rows this is
applied to (theorems for C9 and C10), so the model totalizes with defaults. -/
def sortKeyOfRow (r : List Str) : Option PyDateTime :=
  strptimeYmdHms (beforeParenSplit (r.headD []))

def sortKeyN (r : List Str) : Nat := ((sortKeyOfRow r).map dtKey).getD 0

/-- Stable insertion of a row into a descending-sorted list: the row goes in
front of the first element whose key is less than or equal to its own, so an
earlier-input row precedes later-input rows with the same key. -/
def insertDesc (x : List Str) : List (List Str) → List (List Str)
  | [] => [x]
  | y :: ys => if sortKeyN y ≤ sortKeyN x then x :: y :: ys else y :: insertDesc x ys

/-- `sorted(rows, key=..., reverse=True)` (source lines 55-59): a stable sort
by parsed timestamp, newest first. -/
def sortRowsDesc : List (List Str) → List (List Str)
  | [] => []
  | x :: xs => insertDesc x (sortRowsDesc xs)

/-- The body rows of the output file, as a function of the input body rows. -/
def outputRows (rows : List (List Str)) : List (List Str) :=
  sortRowsDesc (filterRows rows)

example : strptimeYmdHms ("2025/05/03 23:39:46".toList) =
    some ⟨2025, 5, 3, 23, 39, 46⟩ := by decide

example : strptimeYmdHms ("2025/5/3 4:5:6".toList) =
    some ⟨2025, 5, 3, 4, 5, 6⟩ := by decide

example : strptimeYmdHms ("2025/02/30 10:00:00".toList) = none := by decide

example : strptimeYmdHms ("not-a-date".toList) = none := by decide

example : beforeParenSplit ("2025/05/03 23:39:46 (Sat May 03)".toList) =
    "2025/05/03 23:39:46".toList := by decide

example : keepRow ["2025/05/03 23:39:46 (Sat May 03)".toList, "A".toList] = true := by
  decide

example : keepRow ["npm WARN deprecated".toList, "x".toList] = false := by decide

example : keepRow [[], "x".toList] = false := by decide

example : keepRow [] = false := by decide

/-! ### CSV reading and writing (Python `csv` module, default dialect)

The reader is the `_csv.c` state machine for the default dialect (delimiter
`,`, quotechar `"`, doublequote on, non-strict, QUOTE_MINIMAL), driven over
the character stream of a file opened with `newline=''`.  Record boundaries
are `\n`, `\r`, or `\r\n`; a `\r` that ends a record swallows one
immediately following `\n`.  A blank line is an empty record.  In the
non-strict default dialect the reader never raises on end of input: a
pending field or record at the end of the stream is emitted as read. -/

inductive CsvState where
  | startRecord
  | startField
  | inField
  | inQuoted
  | quoteInQuoted
  | eatCrnl
deriving DecidableEq

/-- One record's completed fields are accumulated in `rec` (reversed), the
current field's characters in `fld` (reversed), finished records in `acc`
(reversed). -/
def csvParseAux : Str → CsvState → Str → List Str → List (List Str) → List (List Str)
  | [], st, fld, rec, acc =>
    match st with
    | .startRecord => acc.reverse
    | .eatCrnl => acc.reverse
    | _ => ((fld.reverse :: rec).reverse :: acc).reverse
  | c :: rest, .startRecord, _, _, acc =>
    if c = '\n' then csvParseAux rest .startRecord [] [] ([] :: acc)
    else if c = '\r' then csvParseAux rest .eatCrnl [] [] ([] :: acc)
    else if c = '"' then csvParseAux rest .inQuoted [] [] acc
    else if c = ',' then csvParseAux rest .startField [] [[]] acc
    else csvParseAux rest .inField [c] [] acc
  | c :: rest, .eatCrnl, _, _, acc =>
    if c = '\n' then csvParseAux rest .startRecord [] [] acc
    else if c = '\r' then csvParseAux rest .eatCrnl [] [] ([] :: acc)
    else if c = '"' then csvParseAux rest .inQuoted [] [] acc
    else if c = ',' then csvParseAux rest .startField [] [[]] acc
    else csvParseAux rest .inField [c] [] acc
  | c :: rest, .startField, fld, rec, acc =>
    if c = '\n' then
      csvParseAux rest .startRecord [] [] ((fld.reverse :: rec).reverse :: acc)
    else if c = '\r' then
      csvParseAux rest .eatCrnl [] [] ((fld.reverse :: rec).reverse :: acc)
    else if c = '"' then csvParseAux rest .inQuoted [] rec acc
    else if c = ',' then csvParseAux rest .startField [] (fld.reverse :: rec) acc
    else csvParseAux rest .inField [c] rec acc
  | c :: rest, .inField, fld, rec, acc =>
    if c = '\n' then
      csvParseAux rest .startRecord [] [] ((fld.reverse :: rec).reverse :: acc)
    else if c = '\r' then
      csvParseAux rest .eatCrnl [] [] ((fld.reverse :: rec).reverse :: acc)
    else if c = ',' then csvParseAux rest .startField [] (fld.reverse :: rec) acc
    else csvParseAux rest .inField (c :: fld) rec acc
  | c :: rest, .inQuoted, fld, rec, acc =>
    if c = '"' then csvParseAux rest .quoteInQuoted fld rec acc
    else csvParseAux rest .inQuoted (c :: fld) rec acc
  | c :: rest, .quoteInQuoted, fld, rec, acc =>
    if c = '"' then csvParseAux rest .inQuoted ('"' :: fld) rec acc
    else if c = ',' then csvParseAux rest .startField [] (fld.reverse :: rec) acc
    else if c = '\n' then
      csvParseAux rest .startRecord [] [] ((fld.reverse :: rec).reverse :: acc)
    else if c = '\r' then
      csvParseAux rest .eatCrnl [] [] ((fld.reverse :: rec).reverse :: acc)
    else csvParseAux rest .inField (c :: fld) rec acc

/-- `list(csv.reader(f))` over the raw content of a file opened with
`newline=''`. -/
def csvParse (content : Str) : List (List Str) :=
  csvParseAux content .startRecord [] [] []

/-- QUOTE_MINIMAL: a written field is quoted iff it contains the delimiter,
the quote character, or a line-terminator character. -/
def fieldNeedsQuote (f : Str) : Bool :=
  f.any (fun c => c = ',' || c = '"' || c = '\n' || c = '\r')

def escapeQuotes : Str → Str
  | [] => []
  | c :: rest =>
    if c = '"' then '"' :: '"' :: escapeQuotes rest else c :: escapeQuotes rest

def writeField (f : Str) : Str :=
  if fieldNeedsQuote f then '"' :: (escapeQuotes f ++ ['"']) else f

/-- `csv.writer(...).writerow(r)` without the trailing line terminator.  A
record consisting of a single empty field is written as `""` (otherwise the
line would read back as an empty record). -/
def writeRecord (r : List Str) : Str :=
  if r = [[]] then ['"', '"'] else List.intercalate [','] (r.map writeField)

def crlf : Str := ['\r', '\n']

/-- The content written at source lines 62-65: the header row followed by the
sorted rows, each terminated by the writer's CRLF. -/
def serializeOutput (header : List Str) (rows : List (List Str)) : Str :=
  (writeRecord header ++ crlf) ++ (rows.map (fun r => writeRecord r ++ crlf)).flatten

example : csvParse ("a,b\nc,d\n".toList) =
    [["a".toList, "b".toList], ["c".toList, "d".toList]] := by decide

example : csvParse ("\"A\",B\nx\n".toList) = [["A".toList, "B".toList], ["x".toList]] := by
  decide

example : csvParse ("a\r\n\r\nb".toList) = [["a".toList], [], ["b".toList]] := by decide

example : csvParse ("\"x\"\"y,\nz\",w".toList) =
    [[['x', '"', 'y', ',', '\n', 'z'], ['w']]] := by decide

example : csvParse [] = [] := by decide

example : csvParse ("a,".toList) = [["a".toList, []]] := by decide

example : writeRecord ["a".toList, []] = "a,".toList := by decide

example : writeRecord [[]] = "\"\"".toList := by decide

example : writeRecord [] = [] := by decide

example : writeRecord [['x', '"', 'y'], ['w']] = "\"x\"\"y\",w".toList := by decide

/-! ### Paths (`os.path` on POSIX) and the file system -/

/-- `s.rfind(c)` restricted to single characters: index of the last
occurrence. -/
def rfindPos (c : Char) : Str → Option Nat
  | [] => none
  | x :: xs =>
    match rfindPos c xs with
    | some i => some (i + 1)
    | none => if x = c then some 0 else none

/-- `posixpath.dirname`: everything up to the last `/`, with trailing slashes
stripped unless the head is all slashes. -/
def pyDirname (p : Str) : Str :=
  match rfindPos '/' p with
  | none => []
  | some i =>
    let head := p.take (i + 1)
    if head.all (fun c => c = '/') then head
    else (head.reverse.dropWhile (fun c => c = '/')).reverse

/-- `posixpath.basename`: everything after the last `/`. -/
def pyBasename (p : Str) : Str :=
  match rfindPos '/' p with
  | none => p
  | some i => p.drop (i + 1)

/-- `posixpath.splitext`: split at the last dot after the last separator,
unless every character between them is a dot (leading dots carry no
extension). -/
def pySplitext (p : Str) : Str × Str :=
  let sepIdx : Int := match rfindPos '/' p with | none => -1 | some i => (i : Int)
  let dotIdx : Int := match rfindPos '.' p with | none => -1 | some i => (i : Int)
  if sepIdx < dotIdx then
    let between := (p.drop (sepIdx + 1).toNat).take (dotIdx - sepIdx - 1).toNat
    if between.any (fun c => c ≠ '.') then
      (p.take dotIdx.toNat, p.drop dotIdx.toNat)
    else (p, [])
  else (p, [])

/-- `posixpath.join` for two arguments. -/
def pyJoin (a b : Str) : Str :=
  if b.head? = some '/' then b
  else if a = [] ∨ a.getLast? = some '/' then a ++ b
  else a ++ '/' :: b

/-- Source lines 26-30: the destination path derived when `output_path` is
omitted, `os.path.join(dirname(p), name + "_sorted" + ext)` with
`name, ext = splitext(basename(p))`. -/
def derivedOutputPath (src : Str) : Str :=
  let fileDir := pyDirname src
  let fileName := pyBasename src
  let ne := pySplitext fileName
  pyJoin fileDir (ne.1 ++ "_sorted".toList ++ ne.2)

example : derivedOutputPath ("/data/Scan-ID.csv".toList) =
    "/data/Scan-ID_sorted.csv".toList := by decide

example : derivedOutputPath ("in.csv".toList) = "in_sorted.csv".toList := by decide

/-- A flat file system: an association list from paths to raw file contents
(first binding wins). -/
abbrev FS := List (Str × Str)

def fsRead (fs : FS) (p : Str) : Option Str :=
  match fs with
  | [] => none
  | (q, c) :: rest => if q = p then some c else fsRead rest p

def fsWrite (fs : FS) (p : Str) (c : Str) : FS :=
  match fs with
  | [] => [(p, c)]
  | (q, d) :: rest => if q = p then (q, c) :: rest else (q, d) :: fsWrite rest p c

/-! ### `create_sorted_copy` (source lines 7-72) -/

/-- The destination path the function operates on: argument 2 when given,
otherwise derived from argument 1. -/
def resolveDst (csvPath : Str) (outputPath? : Option Str) : Str :=
  match outputPath? with
  | some p => p
  | none => derivedOutputPath csvPath

/-- `create_sorted_copy(csv_path, output_path)` over the file-system model.
Returns the final file system and the Python return value (`some` the
destination path, `none` for Python's `None`).  Failure paths:
  * missing source (lines 21-23): report and return `None`, no write;
  * `shutil.copy2` with destination equal to the source raises
    `SameFileError`, caught by the outer `except` (line 70): return `None`;
  * an empty copied file makes `next(reader)` raise `StopIteration`, caught
    by the outer `except`: return `None` (the raw copy remains). -/
def createSortedCopy (fs : FS) (csvPath : Str) (outputPath? : Option Str) :
    FS × Option Str :=
  match fsRead fs csvPath with
  | none => (fs, none)
  | some content =>
    let outPath := resolveDst csvPath outputPath?
    if csvPath = outPath then (fs, none)
    else
      let fs1 := fsWrite fs outPath content
      match fsRead fs1 outPath with
      | none => (fs1, none)
      | some copied =>
        match csvParse copied with
        | [] => (fs1, none)
        | header :: rows =>
          let sortedRows := sortRowsDesc (filterRows rows)
          (fsWrite fs1 outPath (serializeOutput header sortedRows), some outPath)

/-- The first line of a raw file content: the characters before the first
line terminator (`\n` or `\r`). -/
def firstLine (content : Str) : Str :=
  content.takeWhile (fun c => c ≠ '\n' && c ≠ '\r')

example :
    createSortedCopy [("in.csv".toList, "CREATED,VAL\n2025/05/03 10:00:00 (Sat),A\n2025/05/04 09:00:00 (Sun),B\n".toList)]
      ("in.csv".toList) none =
    ([("in.csv".toList, "CREATED,VAL\n2025/05/03 10:00:00 (Sat),A\n2025/05/04 09:00:00 (Sun),B\n".toList),
      ("in_sorted.csv".toList, "CREATED,VAL\r\n2025/05/04 09:00:00 (Sun),B\r\n2025/05/03 10:00:00 (Sat),A\r\n".toList)],
     some ("in_sorted.csv".toList)) := by decide

/-! ### Predicates taken from the spec's words, for refinement comparison -/

/-- Modelled from the spec's P1 as frozen in claim C1: field 0 is non-empty,
does not start with "npm ", CONTAINS the substring " (", and the prefix
before " (" parses under the fixed format.  (The containment conjunct is the
spec's; the code does not require it.) -/
def specAcceptsP1 (r : List Str) : Bool :=
  let f := r.headD []
  (!f.isEmpty) && (!startsWithL npmMarker f) && containsParenSub f &&
    (strptimeYmdHms (beforeParenSplit f)).isSome

/-- The amended acceptance predicate: as P1 but without requiring " (" to
occur (when it does not, the whole field must parse). -/
def specAcceptsAmended (r : List Str) : Bool :=
  let f := r.headD []
  (!f.isEmpty) && (!startsWithL npmMarker f) &&
    (strptimeYmdHms (beforeParenSplit f)).isSome

/-! ### Concrete inputs used by counterexamples and witnesses -/

/-- A row whose field 0 parses in full but contains no " (". -/
def rowNoParen : List Str := ["2025/05/03 23:39:46".toList]

/-- A well-formed Scan-ID row. -/
def rowWithParen : List Str :=
  ["2025/05/03 23:39:46 (Sat May 03)".toList, "A".toList]

/-- A row rejected by the filter (field 0 fails to parse). -/
def rowBad : List Str := ["not-a-date".toList, "x".toList]

/-- Input whose header line uses quoting that the writer normalizes away. -/
def fsQuotedHeader : FS := [("in.csv".toList, "\"A\",B\nx,y\n".toList)]

/-- Input with a plain (canonical) header line. -/
def fsPlainHeader : FS := [("in.csv".toList, "A,B\nx,y\n".toList)]

def srcPath : Str := "in.csv".toList

def dstPath : Str := "out.csv".toList

/-! ### Lemmas: the stable descending sort -/

theorem mem_insertDesc {x y : List Str} {l : List (List Str)} :
    y ∈ insertDesc x l ↔ y = x ∨ y ∈ l := by
  induction l with
  | nil => simp [insertDesc]
  | cons z zs ih =>
    by_cases h : sortKeyN z ≤ sortKeyN x
    · simp [insertDesc, h]
    · simp [insertDesc, h, ih]
      tauto

theorem mem_sortRowsDesc {y : List Str} {l : List (List Str)} :
    y ∈ sortRowsDesc l ↔ y ∈ l := by
  induction l with
  | nil => simp [sortRowsDesc]
  | cons x xs ih => simp [sortRowsDesc, mem_insertDesc, ih]

theorem pairwise_insertDesc {x : List Str} {l : List (List Str)}
    (h : List.Pairwise (fun a b => sortKeyN b ≤ sortKeyN a) l) :
    List.Pairwise (fun a b => sortKeyN b ≤ sortKeyN a) (insertDesc x l) := by
  induction l with
  | nil => simp [insertDesc]
  | cons z zs ih =>
    rcases List.pairwise_cons.1 h with ⟨hz, hzs⟩
    by_cases hle : sortKeyN z ≤ sortKeyN x
    · rw [insertDesc, if_pos hle]
      refine List.Pairwise.cons ?_ h
      intro b hb
      rcases List.mem_cons.1 hb with rfl | hb2
      · exact hle
      · exact le_trans (hz b hb2) hle
    · rw [insertDesc, if_neg hle]
      refine List.Pairwise.cons ?_ (ih hzs)
      intro b hb
      rcases mem_insertDesc.1 hb with rfl | hb2
      · exact le_of_not_le hle
      · exact hz b hb2

theorem pairwise_sortRowsDesc (l : List (List Str)) :
    List.Pairwise (fun a b => sortKeyN b ≤ sortKeyN a) (sortRowsDesc l) := by
  induction l with
  | nil => simp [sortRowsDesc]
  | cons x xs ih => exact pairwise_insertDesc ih

theorem filter_insertDesc (k : Nat) (x : List Str) (l : List (List Str)) :
    (insertDesc x l).filter (fun r => sortKeyN r == k) =
      if sortKeyN x == k then x :: l.filter (fun r => sortKeyN r == k)
      else l.filter (fun r => sortKeyN r == k) := by
  induction l with
  | nil =>
    by_cases hx : sortKeyN x = k <;> simp [insertDesc, List.filter_cons, hx]
  | cons z zs ih =>
    by_cases hle : sortKeyN z ≤ sortKeyN x
    · rw [insertDesc, if_pos hle]
      by_cases hx : sortKeyN x = k <;> simp [List.filter_cons, hx]
    · rw [insertDesc, if_neg hle]
      by_cases hx : sortKeyN x = k
      · have hz : ¬ sortKeyN z = k := by
          intro hzk
          exact hle (by rw [hzk, hx])
        simp [List.filter_cons, hx, hz, ih]
      · by_cases hz : sortKeyN z = k <;> simp [List.filter_cons, hx, hz, ih]

theorem filter_sortRowsDesc (k : Nat) (l : List (List Str)) :
    (sortRowsDesc l).filter (fun r => sortKeyN r == k) =
      l.filter (fun r => sortKeyN r == k) := by
  induction l with
  | nil => simp [sortRowsDesc]
  | cons x xs ih =>
    rw [sortRowsDesc, filter_insertDesc, List.filter_cons, ih]

/-! ### Lemmas: the file-system model -/

theorem fsRead_fsWrite_self (fs : FS) (p c : Str) :
    fsRead (fsWrite fs p c) p = some c := by
  induction fs with
  | nil => simp [fsRead, fsWrite]
  | cons e rest ih =>
    by_cases h : e.1 = p <;> simp [fsRead, fsWrite, h, ih]

theorem fsRead_fsWrite_ne (fs : FS) (p c q : Str) (h : q ≠ p) :
    fsRead (fsWrite fs p c) q = fsRead fs q := by
  have hpq : ¬ p = q := fun hh => h hh.symm
  induction fs with
  | nil => simp [fsRead, fsWrite, hpq]
  | cons e rest ih =>
    by_cases h1 : e.1 = p
    · have h2 : ¬ e.1 = q := by
        rw [h1]
        exact hpq
      simp [fsRead, fsWrite, h1, h2, hpq]
    · by_cases h2 : e.1 = q <;> simp [fsRead, fsWrite, h1, h2, hpq, h, ih]

theorem fsWrite_fsWrite (fs : FS) (p a b : Str) :
    fsWrite (fsWrite fs p a) p b = fsWrite fs p b := by
  induction fs with
  | nil => simp [fsWrite]
  | cons e rest ih =>
    by_cases h : e.1 = p <;> simp [fsWrite, h, ih]

/-- The behaviour of `create_sorted_copy` on an existing source, in closed
form: a destination equal to the source fails (`SameFileError`); an empty
parse leaves the raw copy and fails (`StopIteration`); otherwise the
destination receives the header plus the filtered, sorted body, and the
destination path is returned. -/
theorem createSortedCopy_eq (fs : FS) (src : Str) (odst : Option Str) (c : Str)
    (h : fsRead fs src = some c) :
    createSortedCopy fs src odst =
      if src = resolveDst src odst then (fs, none)
      else
        match csvParse c with
        | [] => (fsWrite fs (resolveDst src odst) c, none)
        | header :: rows =>
          (fsWrite fs (resolveDst src odst) (serializeOutput header (outputRows rows)),
            some (resolveDst src odst)) := by
  by_cases hsd : src = resolveDst src odst
  · simp only [createSortedCopy, h, if_pos hsd]
  · simp only [createSortedCopy, h, if_neg hsd, fsRead_fsWrite_self]
    cases hp : csvParse c <;> simp [hp, outputRows, fsWrite_fsWrite]

/-! ### Further helper lemmas -/

theorem keepRow_eq_specAcceptsAmended (r : List Str) :
    keepRow r = specAcceptsAmended r := by
  cases r with
  | nil => simp [keepRow, specAcceptsAmended]
  | cons f rest => simp [keepRow, specAcceptsAmended]

theorem mem_outputRows_iff (rows : List (List Str)) (r : List Str) :
    r ∈ outputRows rows ↔ r ∈ rows ∧ keepRow r = true := by
  rw [outputRows, mem_sortRowsDesc, filterRows, List.mem_filter]

theorem takeWhile_append_all {p : Char → Bool} {l m : Str}
    (hl : ∀ c ∈ l, p c = true) :
    (l ++ m).takeWhile p = l ++ m.takeWhile p := by
  induction l with
  | nil => simp
  | cons a as ih =>
    have ha : p a = true := hl a (by simp)
    have ih2 := ih (fun c hc => hl c (by simp [hc]))
    simp [List.takeWhile_cons, ha, ih2]

theorem mem_firstLine_clean {c : Str} {ch : Char} (h : ch ∈ firstLine c) :
    (ch ≠ '\n' && ch ≠ '\r') = true := by
  rw [firstLine] at h
  have hch := List.mem_takeWhile_imp h
  exact hch

/-! ### Claim C1 -/

/-- C1, as frozen, is false on the code: a row whose field 0 is a full valid
timestamp with no " (" suffix is retained (`split(' (')[0]` is the whole
field), yet the claim's conditions require " (" to occur.  Concrete input:
the single row `["2025/05/03 23:39:46"]` appears in the output body although
it fails the claimed acceptance condition. -/
theorem C1_counterexample :
    ¬ (rowNoParen ∈ outputRows [rowNoParen] ↔ specAcceptsP1 rowNoParen = true) := by
  decide

/-- C1 (amended): a row of the input body appears in the output body iff its
field 0 is non-empty, does not start with "npm ", and the prefix of field 0
before the first " (" — the whole field when " (" does not occur — parses
under the fixed format YYYY/MM/DD HH:MM:SS. -/
theorem C1_filter_correctness (rows : List (List Str)) (r : List Str)
    (hr : r ∈ rows) :
    r ∈ outputRows rows ↔ specAcceptsAmended r = true := by
  rw [mem_outputRows_iff, keepRow_eq_specAcceptsAmended]
  simp [hr]

/-- Witness for C1: the amended equivalence evaluated on a concrete
well-formed row. -/
theorem C1_filter_correctness_witness :
    rowWithParen ∈ outputRows [rowWithParen] ↔ specAcceptsAmended rowWithParen = true :=
  C1_filter_correctness [rowWithParen] rowWithParen (by decide)

/-! ### Claim C2 -/

/-- C2: in the output body every adjacent pair (in fact every pair) is in
weakly descending order of parsed timestamp (the `Nat` key is the strictly
monotone encoding of the parsed `datetime`), and for every key value the
subsequence of rows with that key is exactly the corresponding subsequence
of the filtered input — equal timestamps keep their original relative order
(stability). -/
theorem C2_ordering_stability (rows : List (List Str)) :
    List.Pairwise (fun a b => sortKeyN b ≤ sortKeyN a) (outputRows rows) ∧
      ∀ k : Nat, (outputRows rows).filter (fun r => sortKeyN r == k) =
        (filterRows rows).filter (fun r => sortKeyN r == k) :=
  ⟨pairwise_sortRowsDesc _, fun k => filter_sortRowsDesc k _⟩

/-! ### Claim C4 -/

/-- C4: when the source path does not exist the operation reports failure
(returns `None`) and leaves the file system — in particular any destination
path — completely unchanged. -/
theorem C4_missing_source (fs : FS) (src : Str) (odst : Option Str)
    (h : fsRead fs src = none) :
    createSortedCopy fs src odst = (fs, none) := by
  simp [createSortedCopy, h]

/-- Witness for C4: the empty file system and a missing source path. -/
theorem C4_missing_source_witness :
    fsRead ([] : FS) ("missing.csv".toList) = none ∧
      createSortedCopy ([] : FS) ("missing.csv".toList) none = ([], none) :=
  ⟨rfl, C4_missing_source [] ("missing.csv".toList) none rfl⟩

/-! ### Claim C5 -/

/-- C5: a malformed row is strictly local — removing it from anywhere in the
body changes neither the filtered rows nor the output body built from the
surrounding rows.  (The operation itself is a total function of the file
system in this embedding: every failure path of the Python code is caught at
the boundary and returns `None`, never a propagating exception.) -/
theorem C5_row_locality (pre post : List (List Str)) (r : List Str)
    (h : keepRow r = false) :
    filterRows (pre ++ r :: post) = filterRows (pre ++ post) ∧
      outputRows (pre ++ r :: post) = outputRows (pre ++ post) := by
  have h1 : filterRows (pre ++ r :: post) = filterRows (pre ++ post) := by
    simp [filterRows, List.filter_append, List.filter_cons, h]
  exact ⟨h1, by rw [outputRows, h1, outputRows]⟩

/-- Witness for C5: a bad row sandwiched between two good rows is dropped
without disturbing them. -/
theorem C5_row_locality_witness :
    keepRow rowBad = false ∧
      filterRows [rowWithParen, rowBad, rowNoParen] = filterRows [rowWithParen, rowNoParen] ∧
      outputRows [rowWithParen, rowBad, rowNoParen] = outputRows [rowWithParen, rowNoParen] :=
  ⟨by decide, C5_row_locality [rowWithParen] [rowNoParen] rowBad (by decide)⟩

/-! ### Claim C9 -/

/-- C9: the sort key extractor re-parses `row[0].split(' (')[0]` for every
row that survived the filter; this re-parse always succeeds, so the sort
phase can never raise a timestamp-parse error. -/
theorem C9_sort_key_parse_succeeds (rows : List (List Str)) (r : List Str)
    (h : r ∈ filterRows rows) : (sortKeyOfRow r).isSome = true := by
  rw [filterRows] at h
  rcases List.mem_filter.1 h with ⟨-, hk⟩
  cases r with
  | nil => simp [keepRow] at hk
  | cons f rest =>
    simp only [keepRow, Bool.and_eq_true] at hk
    simpa [sortKeyOfRow] using hk.2

/-- Witness for C9: the key extractor succeeds on a concrete filtered row. -/
theorem C9_sort_key_parse_succeeds_witness :
    (sortKeyOfRow rowWithParen).isSome = true :=
  C9_sort_key_parse_succeeds [rowWithParen] rowWithParen (by decide)

/-! ### Claim C10 -/

/-- C10: a candidate record with zero fields is excluded from the output,
and no row reaching the sort-key extractor is empty: the filter tests `row`
(non-emptiness) before ever indexing `row[0]`, and the extractor only
receives filtered — hence non-empty — rows, so no out-of-bounds access
occurs in either phase. -/
theorem C10_empty_row_excluded (rows : List (List Str)) :
    [] ∉ outputRows rows ∧ ∀ r ∈ filterRows rows, r ≠ [] := by
  constructor
  · intro h
    rcases (mem_outputRows_iff rows []).1 h with ⟨-, hk⟩
    simp [keepRow] at hk
  · intro r hr
    rw [filterRows] at hr
    rcases List.mem_filter.1 hr with ⟨-, hk⟩
    intro he
    subst he
    simp [keepRow] at hk
theorem firstLine_of_clean {l : Str}
    (hl : ∀ ch ∈ l, (ch ≠ '\n' && ch ≠ '\r') = true) :
    firstLine l = l := by
  have h := takeWhile_append_all (m := ([] : Str)) hl
  simpa [firstLine] using h

theorem firstLine_append_crlf (l m : Str) :
    firstLine (l ++ '\r' :: '\n' :: m) = firstLine l := by
  induction l with
  | nil => simp [firstLine, List.takeWhile_cons]
  | cons a as ih =>
    by_cases ha : (a ≠ '\n' && a ≠ '\r') = true
    · simp only [List.cons_append, firstLine, List.takeWhile_cons, ha] at *
      rw [ih]
    · simp only [List.cons_append, firstLine, List.takeWhile_cons,
        Bool.not_eq_true] at *
      rw [ha]
      simp

/-! ### Claim C3 -/

/-- C3, as frozen, is false on the code: the header is read through
`csv.reader` and re-emitted through `csv.writer`, which normalizes quoting.
Concrete input: header line `"A",B` is re-serialized as `A,B`, so the first
line of the output differs from the first line of the input character for
character. -/
theorem C3_counterexample :
    fsRead (createSortedCopy fsQuotedHeader srcPath (some dstPath)).1 dstPath =
        some ("A,B\r\n".toList) ∧
      firstLine ("A,B\r\n".toList) ≠ firstLine ("\"A\",B\nx,y\n".toList) := by
  constructor
  · decide
  · decide

/-- C3 (amended): for every input on which parsing succeeds (and the
destination differs from the source, so the operation succeeds), the first
line of the output equals the first line of the csv writer's minimal-quoting
re-serialization of the input's parsed header record — the full
re-serialization whenever it contains no line-terminator character; and
whenever the input's first line already equals that re-serialization (every
plain unquoted header), the output's first line equals the input's first
line exactly. -/
theorem C3_header_preservation (fs : FS) (src : Str) (odst : Option Str)
    (c : Str) (header : List Str) (rest : List (List Str))
    (hc : fsRead fs src = some c)
    (hp : csvParse c = header :: rest)
    (hsd : src ≠ resolveDst src odst) :
    ∃ out : Str,
      fsRead (createSortedCopy fs src odst).1 (resolveDst src odst) = some out ∧
        firstLine out = firstLine (writeRecord header) ∧
        (writeRecord header = firstLine c → firstLine out = firstLine c) := by
  rw [createSortedCopy_eq fs src odst c hc, if_neg hsd]
  simp only [hp]
  have hser : serializeOutput header (outputRows rest) =
      writeRecord header ++ '\r' :: '\n' ::
        ((outputRows rest).map (fun r => writeRecord r ++ crlf)).flatten := by
    rw [serializeOutput, crlf]
    simp
  have hmain : firstLine (serializeOutput header (outputRows rest)) =
      firstLine (writeRecord header) := by
    rw [hser, firstLine_append_crlf]
  refine ⟨_, fsRead_fsWrite_self _ _ _, hmain, ?_⟩
  intro hw
  rw [hmain, hw, firstLine_of_clean (fun ch hch => mem_firstLine_clean hch)]

/-- Witness for C3: a concrete run; the output's first line is the first
line of the re-serialized header, and the input's header being canonical it
equals the input's first line. -/
theorem C3_header_preservation_witness :
    ∃ out : Str,
      fsRead (createSortedCopy fsPlainHeader srcPath (some dstPath)).1
          (resolveDst srcPath (some dstPath)) = some out ∧
        firstLine out = firstLine (writeRecord ["A".toList, "B".toList]) ∧
        (writeRecord ["A".toList, "B".toList] = firstLine ("A,B\nx,y\n".toList) →
          firstLine out = firstLine ("A,B\nx,y\n".toList)) :=
  C3_header_preservation fsPlainHeader srcPath (some dstPath)
    ("A,B\nx,y\n".toList) ["A".toList, "B".toList] [["x".toList, "y".toList]]
    (by decide) (by decide) (by decide)

/-! ### Claim C6 -/

/-- C6: when the destination argument is omitted, the operation works on the
deterministically derived path `join(dirname(src), name + "_sorted" + ext)`
with `name, ext = splitext(basename(src))`, and whatever path it returns on
success is exactly that derived path. -/
theorem C6_derived_destination (fs : FS) (src p : Str)
    (h : (createSortedCopy fs src none).2 = some p) :
    p = derivedOutputPath src := by
  cases hc : fsRead fs src with
  | none => simp [createSortedCopy, hc] at h
  | some c =>
    rw [createSortedCopy_eq fs src none c hc] at h
    by_cases hsd : src = resolveDst src none
    · rw [if_pos hsd] at h
      simp at h
    · rw [if_neg hsd] at h
      cases hp : csvParse c with
      | nil =>
        simp only [hp] at h
        simp at h
      | cons header rows =>
        simp only [hp] at h
        simp only [Option.some.injEq] at h
        rw [← h]
        rfl

/-- Witness for C6: a successful run on `in.csv` with the destination
argument omitted returns `in_sorted.csv`. -/
theorem C6_derived_destination_witness :
    "in_sorted.csv".toList = derivedOutputPath ("in.csv".toList) :=
  C6_derived_destination fsPlainHeader srcPath ("in_sorted.csv".toList) (by decide)

/-! ### Claim C7 -/

/-- C7: the operation is idempotent: running it a second time on the
resulting file system, with the same source and destination arguments,
changes nothing — the file system (in particular the destination content)
and the returned value are identical to the first run's. -/
theorem C7_idempotent_rerun (fs : FS) (src : Str) (odst : Option Str) :
    createSortedCopy (createSortedCopy fs src odst).1 src odst =
      createSortedCopy fs src odst := by
  cases hc : fsRead fs src with
  | none =>
    have h1 : createSortedCopy fs src odst = (fs, none) := by
      simp [createSortedCopy, hc]
    rw [h1]
    exact h1
  | some c =>
    by_cases hsd : src = resolveDst src odst
    · have h1 := createSortedCopy_eq fs src odst c hc
      rw [if_pos hsd] at h1
      rw [h1]
      exact h1
    · have hne : src ≠ resolveDst src odst := hsd
      cases hp : csvParse c with
      | nil =>
        have h1 := createSortedCopy_eq fs src odst c hc
        rw [if_neg hsd] at h1
        simp only [hp] at h1
        rw [h1]
        have hc2 : fsRead (fsWrite fs (resolveDst src odst) c) src = some c := by
          rw [fsRead_fsWrite_ne _ _ _ _ hne]
          exact hc
        have h2 := createSortedCopy_eq (fsWrite fs (resolveDst src odst) c) src odst c hc2
        rw [if_neg hsd] at h2
        simp only [hp] at h2
        rw [h2, fsWrite_fsWrite]
      | cons header rows =>
        have h1 := createSortedCopy_eq fs src odst c hc
        rw [if_neg hsd] at h1
        simp only [hp] at h1
        rw [h1]
        have hc2 : fsRead
            (fsWrite fs (resolveDst src odst) (serializeOutput header (outputRows rows)))
            src = some c := by
          rw [fsRead_fsWrite_ne _ _ _ _ hne]
          exact hc
        have h2 := createSortedCopy_eq
          (fsWrite fs (resolveDst src odst) (serializeOutput header (outputRows rows)))
          src odst c hc2
        rw [if_neg hsd] at h2
        simp only [hp] at h2
        rw [h2, fsWrite_fsWrite]

/-! ### Claim C8 -/

/-- C8: the operation writes only to the resolved destination path: every
other path — in particular the source, whenever it differs from the
destination — reads back exactly as before the operation. -/
theorem C8_source_unchanged (fs : FS) (src : Str) (odst : Option Str) :
    (src ≠ resolveDst src odst →
      fsRead (createSortedCopy fs src odst).1 src = fsRead fs src) ∧
      ∀ p : Str, p ≠ resolveDst src odst →
        fsRead (createSortedCopy fs src odst).1 p = fsRead fs p := by
  have key : ∀ p : Str, p ≠ resolveDst src odst →
      fsRead (createSortedCopy fs src odst).1 p = fsRead fs p := by
    intro p hp
    cases hc : fsRead fs src with
    | none => simp [createSortedCopy, hc]
    | some c =>
      rw [createSortedCopy_eq fs src odst c hc]
      by_cases hsd : src = resolveDst src odst
      · rw [if_pos hsd]
      · rw [if_neg hsd]
        cases hcsv : csvParse c with
        | nil =>
          simp only [hcsv]
          exact fsRead_fsWrite_ne _ _ _ _ hp
        | cons header rows =>
          simp only [hcsv]
          exact fsRead_fsWrite_ne _ _ _ _ hp
  exact ⟨fun h => key src h, key⟩

/-- Witness for C8: a concrete run leaves the source file's content
untouched. -/
theorem C8_source_unchanged_witness :
    fsRead (createSortedCopy fsPlainHeader srcPath (some dstPath)).1 srcPath =
      fsRead fsPlainHeader srcPath :=
  (C8_source_unchanged fsPlainHeader srcPath (some dstPath)).1 (by decide)

/-- Witness for C10: an input containing a zero-field row; the empty row is
absent from the output and a concrete filtered row is non-empty. -/
theorem C10_empty_row_excluded_witness :
    [] ∉ outputRows [[], rowWithParen] ∧ rowWithParen ≠ ([] : List Str) :=
  ⟨(C10_empty_row_excluded [[], rowWithParen]).1,
    (C10_empty_row_excluded [[], rowWithParen]).2 rowWithParen (by decide)⟩
